import Mathlib

/-!
Verification development for the c2rust rewrite core and PDG info pass.

The definitions below are a shallow embedding of:
- `src/c2rust-analyze/src/rewrite/mod.rs` (the `Rewrite` operation tree and its
  precedence-aware `pretty` renderer),
- `src/c2rust-analyze/src/rewrite/ty.rs` (the type-rewrite generator:
  `deconstruct_hir_ty`, `mk_rewritten_ty`, `HirTyVisitor::handle_ty`, and the
  generics portion of `HirTyVisitor::visit_item`),
- `src/pdg/src/info.rs` (the flow/uniqueness analysis helpers and
  `augment_with_info`).

Machine-level details that the claims do not depend on (source spans, rustc's
interned types, hash maps) are modelled by `Nat` identifiers, plain inductive
trees, and association lists.  Panics (`unwrap`, `assert!`, `todo!`,
`expect`) are modelled by `Except String`.  Loops that are not structurally
terminating in the source are modelled as fuel-indexed small-step executions.
-/

/-- Source span, abstracted to an opaque identifier.  Spans are only ever used
as keys anchoring edits, never inspected. -/
abbrev Span := Nat

/-- Mirror of `rustc_hir::Mutability`. -/
inductive Mutability where
  | not
  | mut
deriving DecidableEq, Repr

/-- Mirror of the integer-width enums (`ty::IntTy` / `ast::IntTy`; the
`Convert` impls in ty.rs translate between the two identical enumerations, so
one Lean type stands for both). -/
inductive IntTy where
  | isize | i8 | i16 | i32 | i64 | i128
deriving DecidableEq, Repr

/-- Mirror of `ty::UintTy` / `ast::UintTy`. -/
inductive UintTy where
  | usize | u8 | u16 | u32 | u64 | u128
deriving DecidableEq, Repr

/-- Mirror of `ty::FloatTy` / `ast::FloatTy`. -/
inductive FloatTy where
  | f32 | f64
deriving DecidableEq, Repr

/-- Mirror of `hir::PrimTy`. -/
inductive PrimTy where
  | bool
  | char
  | int (t : IntTy)
  | uint (t : UintTy)
  | float (t : FloatTy)
  | str
deriving DecidableEq, Repr

/-- Modelled from the spec: the optional explicit lifetime designator
(`LifetimeName` is imported by ty.rs from the rewrite module; the variant
shapes are fixed by its uses `LifetimeName::Explicit(..)` and
`LifetimeName::Elided` in `handle_ty`). -/
inductive LifetimeName where
  | Explicit (s : String)
  | Elided
deriving DecidableEq, Repr

/-- Modelled from the spec: a lifetime argument attached to a pointer position
(`crate::borrowck::OriginArg`, not part of this core; ty.rs only tests whether
it is `Hypothetical` and Debug-formats it). -/
inductive OriginArg where
  | hypothetical (n : Nat)
  | actual (name : String)
deriving DecidableEq, Repr

/-- Modelled from the spec: a lifetime parameter of an aggregate declaration
(`crate::borrowck::OriginParam`; ty.rs only tests whether it is `Hypothetical`
and Debug-formats it). -/
inductive OriginParam where
  | hypothetical (n : Nat)
  | actual (name : String)
deriving DecidableEq, Repr

/-- Modelled from the spec: the Debug rendering of an `OriginArg` used by
`handle_ty` for explicit lifetimes.  The exact text is irrelevant to every
claim; we render hypothetical lifetimes as `h<n>`. -/
def originArgFmt : OriginArg → String
  | .hypothetical n => "h" ++ toString n
  | .actual s => s

/-- Modelled from the spec: the Debug rendering of an `OriginParam` used by
`visit_item` when synthesizing generic-parameter lists. -/
def originParamFmt : OriginParam → String
  | .hypothetical n => "h" ++ toString n
  | .actual s => s

/-- Mirror of `type_desc::Ownership` (the ownership category; spec names:
RawImmutable, RawMutable, BorrowedImmutable, InteriorMutableCell,
BorrowedMutable, ReferenceCounted, OwningHandle). -/
inductive Ownership where
  | Raw
  | RawMut
  | Imm
  | Cell
  | Mut
  | Rc
  | Box
deriving DecidableEq, Repr

/-- Mirror of `type_desc::Quantity` (the quantity category; spec names:
Single, DynamicSlice, OffsetCapable). -/
inductive Quantity where
  | Single
  | Slice
  | OffsetPtr
deriving DecidableEq, Repr

/-- Mirror of `Rewrite` from rewrite/mod.rs.  Two variants reflect the shape
ty.rs constructs them with: `TyRef` carries the `LifetimeName` passed by
`handle_ty`, and `TyParams` is the generic-parameter-list edit pushed by
`visit_item`. -/
inductive Rewrite where
  | Identity
  | Sub (idx : Nat) (span : Span)
  | Ref (rw : Rewrite) (mutbl : Mutability)
  | AddrOf (rw : Rewrite) (mutbl : Mutability)
  | Deref (rw : Rewrite)
  | Index (arr : Rewrite) (idx : Rewrite)
  | SliceTail (arr : Rewrite) (idx : Rewrite)
  | Cast (rw : Rewrite) (ty : String)
  | LitZero
  | Call (func : String) (args : List Rewrite)
  | MethodCall (method : String) (receiver : Rewrite) (args : List Rewrite)
  | PrintTy (s : String)
  | TyPtr (rw : Rewrite) (mutbl : Mutability)
  | TyRef (lt : LifetimeName) (rw : Rewrite) (mutbl : Mutability)
  | TySlice (rw : Rewrite)
  | TyCtor (name : String) (args : List Rewrite)
  | TyParams (params : List Rewrite)
  | StaticMut (mutbl : Mutability) (span : Span)

/-- Helper mirroring `parenthesize_if` inside `Rewrite::pretty`. -/
def parenthesizeIf (cond : Bool) (s : String) : String :=
  if cond then "(" ++ s ++ ")" else s

mutual

/-- Mirror of `Rewrite::pretty(f, prec)` from rewrite/mod.rs, producing the
string written to the formatter.  Expr precedence: Index/SliceTail 3,
Ref/Deref 2, Cast 1; the `Display` impl calls `pretty` with prec 0.
`TyRef`'s lifetime is ignored (mod.rs renders only `&`/`&mut `); `TyParams`
has no clause in mod.rs's renderer, we render it inertly as an angle-bracket
list (no claim depends on it). -/
def pretty : Rewrite → Nat → String
  | .Identity, _ => "$e"
  | .Sub i _, _ => "$" ++ toString i
  | .Ref rw mutbl, prec =>
    parenthesizeIf (prec > 2)
      ((match mutbl with | .not => "&" | .mut => "&mut ") ++ pretty rw 2)
  | .AddrOf rw mutbl, _ =>
    (match mutbl with
     | .not => "core::ptr::addr_of!"
     | .mut => "core::ptr::addr_of_mut!") ++ "(" ++ pretty rw 0 ++ ")"
  | .Deref rw, prec => parenthesizeIf (prec > 2) ("*" ++ pretty rw 2)
  | .Index arr idx, prec =>
    parenthesizeIf (prec > 3) (pretty arr 3 ++ "[" ++ pretty idx 0 ++ "]")
  | .SliceTail arr idx, prec =>
    parenthesizeIf (prec > 3) (pretty arr 3 ++ "[" ++ pretty idx 999 ++ " ..]")
  | .Cast rw ty, prec => parenthesizeIf (prec > 1) (pretty rw 1 ++ " as " ++ ty)
  | .LitZero, _ => "0"
  | .Call func args, _ => func ++ "(" ++ prettyCommaSep args ++ ")"
  | .MethodCall method receiver args, _ =>
    pretty receiver 0 ++ "." ++ method ++ "(" ++ prettyCommaSep args ++ ")"
  | .PrintTy s, _ => s
  | .TyPtr rw mutbl, _ =>
    (match mutbl with | .not => "*const " | .mut => "*mut ") ++ pretty rw 0
  | .TyRef _ rw mutbl, _ =>
    (match mutbl with | .not => "&" | .mut => "&mut ") ++ pretty rw 0
  | .TySlice rw, _ => "[" ++ pretty rw 0 ++ "]"
  | .TyCtor name args, _ => name ++ "<" ++ prettyConcat args ++ ">"
  | .TyParams params, _ => "<" ++ prettyConcat params ++ ">"
  | .StaticMut mutbl _, _ =>
    (match mutbl with | .not => "static (-mut) " | .mut => "static (+mut) ") ++ "$s"

/-- Mirror of the comma-separating argument loops in `pretty` for `Call` and
`MethodCall` (a comma is written after every argument except the last). -/
def prettyCommaSep : List Rewrite → String
  | [] => ""
  | [r] => pretty r 0
  | r :: rest => pretty r 0 ++ "," ++ prettyCommaSep rest

/-- Mirror of the argument loop in `pretty` for `TyCtor`: each argument is
rendered at precedence 0 with no separator written between arguments. -/
def prettyConcat : List Rewrite → String
  | [] => ""
  | r :: rest => pretty r 0 ++ prettyConcat rest

end

/-- Node precedence as assigned by the specification text of claim C3:
index/slice 3, address-of/dereference 2, cast 1, all other kinds 0. -/
def claimPrec : Rewrite → Nat
  | .Index _ _ => 3
  | .SliceTail _ _ => 3
  | .Ref _ _ => 2
  | .Deref _ => 2
  | .Cast _ _ => 1
  | _ => 0

/-- The parenthesization rule exactly as claim C3 words it: output at context
precedence `prec` is the bare rendering wrapped in parentheses iff the node's
fixed precedence is strictly below `prec`. -/
def claimParenRule : Prop :=
  ∀ (rw : Rewrite) (prec : Nat),
    pretty rw prec =
      if claimPrec rw < prec then "(" ++ pretty rw 0 ++ ")" else pretty rw 0

/-- The precedence at which the renderer actually parenthesizes a node:
`some q` for the five parenthesizable kinds (the node is wrapped exactly when
the context precedence exceeds `q`), `none` for every other kind (never
wrapped). -/
def effPrec : Rewrite → Option Nat
  | .Index _ _ => some 3
  | .SliceTail _ _ => some 3
  | .Ref _ _ => some 2
  | .Deref _ => some 2
  | .Cast _ _ => some 1
  | _ => none

mutual

/-- Mirror of the `rustc_middle::ty::Ty` shapes that ty.rs inspects
(`TyKind::Bool/Char/Int/Uint/Float/Str/Array/Slice/RawPtr/Ref/Tuple/Adt`).
Array lengths and regions are erased, as ty.rs never reads them; ADTs are
identified by their path string standing in for the `DefId`. -/
inductive Ty where
  | bool
  | char
  | int (t : IntTy)
  | uint (t : UintTy)
  | float (t : FloatTy)
  | str
  | array (elem : Ty)
  | slice (elem : Ty)
  | rawPtr (m : Mutability) (pointee : Ty)
  | ref (m : Mutability) (pointee : Ty)
  | tuple (elems : List Ty)
  | adt (name : String) (substs : List GenericArg)

/-- Mirror of `subst::GenericArg` as consumed by ty.rs: either a lifetime or
a type argument (const arguments fall under the type-formatting case there and
are not needed by any claim). -/
inductive GenericArg where
  | lifetime (name : String)
  | type (t : Ty)

end

/-- Whether a resolved type is an aggregate (`TyKind::Adt`). -/
def Ty.isAdt : Ty → Bool
  | .adt _ _ => true
  | _ => false

/-- Mirror of `hir::def::Res` as used by `deconstruct_hir_ty`: a primitive
type or some other definition (type alias, ADT, ...). -/
inductive HirRes where
  | primTy (p : PrimTy)
  | defRes (name : String)
deriving DecidableEq, Repr

mutual

/-- Mirror of `hir::Ty`: a syntactic type node together with its source span. -/
inductive HirTy where
  | mk (kind : HirTyKind) (span : Span)

/-- Mirror of the `hir::TyKind` shapes matched by `deconstruct_hir_ty`:
resolved paths (with optional generic arguments on the final segment), arrays,
slices, raw pointers, references, and tuples.  `infer` stands for every
written shape with no decomposition rule (`_`, trait objects, ...). -/
inductive HirTyKind where
  | path (res : HirRes) (args : Option (List HirGenericArg))
  | array (elem : HirTy)
  | slice (elem : HirTy)
  | ptr (m : Mutability) (pointee : HirTy)
  | rptr (m : Mutability) (pointee : HirTy)
  | tup (elems : List HirTy)
  | infer

/-- Mirror of `hir::GenericArg` (only the type/lifetime distinction is read). -/
inductive HirGenericArg where
  | lifetime (name : String)
  | type (t : HirTy)

end

/-- Kind accessor for `HirTy`. -/
def HirTy.kind : HirTy → HirTyKind
  | .mk k _ => k

/-- Span accessor for `HirTy`. -/
def HirTy.span : HirTy → Span
  | .mk _ s => s

/-- Mirror of `extract_type_arg_tys`: if the written type is a resolved path
whose final segment carries generic arguments, return its type arguments. -/
def extract_type_arg_tys (ty : HirTy) : Option (List HirTy) :=
  match ty.kind with
  | .path _ (some args) =>
    some (args.filterMap fun k =>
      match k with
      | .type t => some t
      | _ => none)
  | _ => none

/-- Mirror of the inner `do_prim` of `deconstruct_hir_ty`: match a specific
primitive type against a written type. -/
def do_prim (expect_prim : PrimTy) (hir_ty : HirTy) : Option (List HirTy) :=
  match hir_ty.kind with
  | .path (.primTy prim) _ => if prim = expect_prim then some [] else none
  | _ => none

/-- Whether a generic argument is a type argument (`substs.types()`). -/
def GenericArg.isType : GenericArg → Bool
  | .type _ => true
  | _ => false

/-- Mirror of `deconstruct_hir_ty`: extract the written child types of
`hir_ty` if its syntactic shape matches the resolved type `ty`; `none` when
the shapes differ (alias, inferred placeholder, arity or mutability mismatch,
or an unsupported shape). -/
def deconstruct_hir_ty (ty : Ty) (hir_ty : HirTy) : Option (List HirTy) :=
  match ty, hir_ty.kind with
  | .bool, _ => do_prim .bool hir_ty
  | .char, _ => do_prim .char hir_ty
  | .int ity, _ => do_prim (.int ity) hir_ty
  | .uint uty, _ => do_prim (.uint uty) hir_ty
  | .float fty, _ => do_prim (.float fty) hir_ty
  | .str, _ => do_prim .str hir_ty
  | .array _, .array arg_ty => some [arg_ty]
  | .slice _, .slice arg_ty => some [arg_ty]
  | .rawPtr tm _, .ptr hm hpointee =>
    if hm = tm then some [hpointee] else none
  | .ref m _, .rptr hm hpointee =>
    if hm = m then some [hpointee] else none
  | .tuple tys, .tup hir_tys =>
    if tys.length = hir_tys.length then some hir_tys else none
  | .adt _ substs, .path _ _ =>
    match extract_type_arg_tys hir_ty with
    | some type_args =>
      if type_args.length ≤ (substs.filter GenericArg.isType).length then
        some type_args
      else none
    | none => none
  | _, _ => none

/-- Mirror of `RewriteLabel` from ty.rs: the per-position annotation of the
Annotated Type Tree. -/
structure RewriteLabel where
  ty_desc : Option (Ownership × Quantity)
  descendant_has_rewrite : Bool
  lifetime : Option OriginArg

/-- Mirror of `RwLTy = LabeledTy<RewriteLabel>`: the resolved type annotated
at every position with a `RewriteLabel`; `args` are the labeled type
arguments of the node, in the same sense as `LabeledTy.args`. -/
inductive RwLTy where
  | mk (ty : Ty) (args : List RwLTy) (label : RewriteLabel)

/-- Resolved-type accessor for `RwLTy`. -/
def RwLTy.ty : RwLTy → Ty
  | .mk t _ _ => t

/-- Argument accessor for `RwLTy`. -/
def RwLTy.args : RwLTy → List RwLTy
  | .mk _ a _ => a

/-- Label accessor for `RwLTy`. -/
def RwLTy.label : RwLTy → RewriteLabel
  | .mk _ _ l => l

/-- Member-wise induction principle for the nested inductive `RwLTy`. -/
def RwLTy.ind {P : RwLTy → Prop}
    (h : ∀ t as l, (∀ a ∈ as, P a) → P (.mk t as l)) : ∀ rw, P rw
  | .mk t as l => h t as l (fun a ha => RwLTy.ind h a)
termination_by rw => sizeOf rw
decreasing_by
  have h1 : sizeOf a < sizeOf as := List.sizeOf_lt_of_mem ha
  simp only [RwLTy.mk.sizeOf_spec]
  omega

mutual

/-- Modelled from the spec: the textual rendering of a resolved type
(ty.rs feeds the synthesized type through rustc's `FmtPrinter`, which is
outside this core; the rendering below prints the same surface syntax). -/
def printTyStr : Ty → String
  | .bool => "bool"
  | .char => "char"
  | .int .isize => "isize"
  | .int .i8 => "i8"
  | .int .i16 => "i16"
  | .int .i32 => "i32"
  | .int .i64 => "i64"
  | .int .i128 => "i128"
  | .uint .usize => "usize"
  | .uint .u8 => "u8"
  | .uint .u16 => "u16"
  | .uint .u32 => "u32"
  | .uint .u64 => "u64"
  | .uint .u128 => "u128"
  | .float .f32 => "f32"
  | .float .f64 => "f64"
  | .str => "str"
  | .array e => "[" ++ printTyStr e ++ "]"
  | .slice e => "[" ++ printTyStr e ++ "]"
  | .rawPtr .not e => "*const " ++ printTyStr e
  | .rawPtr .mut e => "*mut " ++ printTyStr e
  | .ref .not e => "&" ++ printTyStr e
  | .ref .mut e => "&mut " ++ printTyStr e
  | .tuple es => "(" ++ printTyStrList es ++ ")"
  | .adt n [] => n
  | .adt n (s :: ss) => n ++ "<" ++ printGenericArgList (s :: ss) ++ ">"

/-- Comma-separated rendering of tuple element types. -/
def printTyStrList : List Ty → String
  | [] => ""
  | [t] => printTyStr t
  | t :: ts => printTyStr t ++ ", " ++ printTyStrList ts

/-- Comma-separated rendering of generic arguments. -/
def printGenericArgList : List GenericArg → String
  | [] => ""
  | [a] => printGenericArg a
  | a :: as => printGenericArg a ++ ", " ++ printGenericArgList as

/-- Rendering of a single generic argument. -/
def printGenericArg : GenericArg → String
  | .lifetime s => s
  | .type t => printTyStr t

end

/-- Mirror of `mk_cell` from ty.rs: it looks up `core::cell::Cell` via the
compiler context and applies it to the given type. -/
def mk_cell (t : Ty) : Ty :=
  Ty.adt "core::cell::Cell" [GenericArg.type t]

/-- Modelled from the spec: positional replacement of a type constructor's
type arguments by freshly rewritten children, as done by
`LabeledTyCtxt::rewrite_unlabeled` (the `labeled_ty` module is outside this
core; the spec describes synthesizing the fully resolved type from the
Annotated Type Tree by applying all descendant decisions).  Lifetime
arguments of an ADT are preserved in place. -/
def replaceTypeArgs : List GenericArg → List Ty → List GenericArg
  | [], _ => []
  | .lifetime s :: rest, new => .lifetime s :: replaceTypeArgs rest new
  | .type _ :: rest, n :: ns => .type n :: replaceTypeArgs rest ns
  | .type t :: rest, [] => .type t :: replaceTypeArgs rest []

/-- Modelled from the spec: rebuild one unlabeled type node from its
(possibly rewritten) type children, the reconstruction step of
`rewrite_unlabeled`. -/
def setTyArgs : Ty → List Ty → Ty
  | .array e, new => .array (new.headD e)
  | .slice e, new => .slice (new.headD e)
  | .rawPtr m e, new => .rawPtr m (new.headD e)
  | .ref m e, new => .ref m (new.headD e)
  | .tuple es, new => .tuple (if new.length = es.length then new else es)
  | .adt n substs, new => .adt n (replaceTypeArgs substs new)
  | t, _ => t

/-- Mirror of the closure passed to `rewrite_unlabeled` by `mk_rewritten_ty`:
at a node carrying no decision keep the rebuilt type; at a node carrying a
decision the sole argument is the pointee (`assert_eq!(args.len(), 1)`), the
pointee is wrapped in `Cell` for interior-mutable ownership, a slice for
non-single quantity (offset-capable is synthesized identically to slice, a
known TODO), and then the pointer/reference/`Box` constructor;
`Ownership::Rc` is `todo!()`. -/
def rewritten_ty_step (ty : Ty) (args : List Ty) (label : RewriteLabel) :
    Except String Ty :=
  match label.ty_desc with
  | none => .ok ty
  | some (own, qty) =>
    match args with
    | [pointee] =>
      let t1 := if own = Ownership.Cell then mk_cell pointee else pointee
      let t2 :=
        match qty with
        | .Single => t1
        | .Slice => Ty.slice t1
        | .OffsetPtr => Ty.slice t1
      match own with
      | .Raw => .ok (Ty.rawPtr .not t2)
      | .RawMut => .ok (Ty.rawPtr .mut t2)
      | .Imm => .ok (Ty.ref .not t2)
      | .Cell => .ok (Ty.ref .not t2)
      | .Mut => .ok (Ty.ref .mut t2)
      | .Rc => .error "mk_rewritten_ty: Ownership::Rc is not implemented"
      | .Box => .ok (Ty.adt "Box" [GenericArg.type t2])
    | _ => .error "mk_rewritten_ty: pointer label with argument count not equal to one"

mutual

/-- Mirror of `mk_rewritten_ty` from ty.rs: produce the `Ty` reflecting the
rewrites indicated by the labels in `rw_lty`, by folding `rewritten_ty_step`
(the closure passed to `rewrite_unlabeled`) over the tree bottom-up. -/
def mk_rewritten_ty : RwLTy → Except String Ty
  | .mk ty args label =>
    match mk_rewritten_tys args with
    | .error e => .error e
    | .ok newArgs => rewritten_ty_step (setTyArgs ty newArgs) newArgs label

/-- Bottom-up rewriting of a list of labeled children. -/
def mk_rewritten_tys : List RwLTy → Except String (List Ty)
  | [] => .ok []
  | a :: rest =>
    match mk_rewritten_ty a with
    | .error e => .error e
    | .ok t =>
      match mk_rewritten_tys rest with
      | .error e => .error e
      | .ok ts => .ok (t :: ts)

end

/-- Mirror of the per-aggregate metadata consumed by ty.rs
(`AdtMetadataTable`): the inferred lifetime-parameter list of each aggregate
(field metadata is consumed only by the struct-field walk, not needed here). -/
structure AdtMetadata where
  lifetime_params : List OriginParam
deriving Repr

/-- The aggregate-metadata table, keyed by the aggregate's path string. -/
abbrev AdtMetadataTable := List (String × AdtMetadata)

/-- Mirror of the ownership/quantity wrapper construction in `handle_ty`
(lines building `rw` from `Rewrite::Sub(0, hir_args[0].span)`): Cell wrap,
then slice wrap for non-single quantity (offset-capable identical to slice,
a known TODO), then the pointer/reference wrap carrying an explicit or
elided lifetime; `Ownership::Rc` and `Ownership::Box` are `todo!()` here. -/
def desc_rewrite (own : Ownership) (qty : Quantity) (lifetime : Option OriginArg)
    (sub_span : Span) : Except String Rewrite :=
  let rw0 := Rewrite.Sub 0 sub_span
  let rw1 :=
    if own = Ownership.Cell then Rewrite.TyCtor "core::cell::Cell" [rw0] else rw0
  let rw2 :=
    match qty with
    | .Single => rw1
    | .Slice => Rewrite.TySlice rw1
    | .OffsetPtr => Rewrite.TySlice rw1
  let lifetime_type :=
    match lifetime with
    | some lt => LifetimeName.Explicit (originArgFmt lt)
    | none => LifetimeName.Elided
  match own with
  | .Raw => .ok (Rewrite.TyPtr rw2 .not)
  | .RawMut => .ok (Rewrite.TyPtr rw2 .mut)
  | .Imm => .ok (Rewrite.TyRef lifetime_type rw2 .not)
  | .Cell => .ok (Rewrite.TyRef lifetime_type rw2 .not)
  | .Mut => .ok (Rewrite.TyRef lifetime_type rw2 .mut)
  | .Rc => .error "handle_ty: Ownership::Rc is not implemented"
  | .Box => .error "handle_ty: Ownership::Box is not implemented"

/-- Mirror of the `TyKind::Adt` arm of `handle_ty`: when the resolved type is
an aggregate present in the metadata table, push one `TyCtor` edit whose
arguments are the inferred lifetime parameters followed by the non-lifetime
substitutions. -/
def adt_ctor_edits (md : AdtMetadataTable) (ty : Ty) (span : Span) :
    List (Span × Rewrite) :=
  match ty with
  | .adt name substs =>
    match md.lookup name with
    | some am =>
      [(span, Rewrite.TyCtor name
        ((am.lifetime_params.map fun p => Rewrite.PrintTy (originParamFmt p)) ++
         substs.filterMap fun p =>
           match p with
           | .lifetime _ => none
           | .type t => some (Rewrite.PrintTy (printTyStr t))))]
    | none => []
  | _ => []

/-- Mirror of the `if let Some((own, qty)) = rw_lty.label.ty_desc` block of
`handle_ty`: when the node carries a decision, the written type must have
exactly one extracted child (`assert_eq!(hir_args.len(), 1)`), and one
wrapper edit is pushed at the node's span around `Sub(0, hir_args[0].span)`. -/
def ty_desc_edits (ty_desc : Option (Ownership × Quantity))
    (lifetime : Option OriginArg) (hir_args : List HirTy) (span : Span) :
    Except String (List (Span × Rewrite)) :=
  match ty_desc with
  | none => .ok []
  | some (own, qty) =>
    match hir_args with
    | [h0] =>
      match desc_rewrite own qty lifetime h0.span with
      | .error e => .error e
      | .ok rw => .ok [(span, rw)]
    | _ => .error "handle_ty: assert_eq hir_args.len() == 1 failed"

mutual

/-- Mirror of `HirTyVisitor::handle_ty` from ty.rs, returning the list of
`(span, rewrite)` edits it pushes onto `hir_rewrites`.  Control flow follows
the source: prune when the node is no aggregate, carries no decision, and no
descendant needs rewriting; on decomposition failure synthesize the full
rewritten type and emit a single `PrintTy` edit for the whole node;
otherwise emit the decision wrapper (if any), the aggregate `TyCtor` edit
(if any), and recurse into the zipped children when a descendant needs
rewriting. -/
def handle_ty (md : AdtMetadataTable) : RwLTy → HirTy → Except String (List (Span × Rewrite))
  | .mk ty args label, hir_ty =>
    if !ty.isAdt && label.ty_desc.isNone && !label.descendant_has_rewrite then
      .ok []
    else
      match deconstruct_hir_ty ty hir_ty with
      | none =>
        match mk_rewritten_ty (.mk ty args label) with
        | .error e => .error e
        | .ok t => .ok [(hir_ty.span, Rewrite.PrintTy (printTyStr t))]
      | some hir_args =>
        match ty_desc_edits label.ty_desc label.lifetime hir_args hir_ty.span with
        | .error e => .error e
        | .ok e1 =>
          let e2 := adt_ctor_edits md ty hir_ty.span
          if label.descendant_has_rewrite then
            match handle_tys md args hir_args with
            | .error e => .error e
            | .ok e3 => .ok (e1 ++ e2 ++ e3)
          else .ok (e1 ++ e2)

/-- The recursion of `handle_ty` over `rw_lty.args.iter().zip(hir_args)`:
edits of earlier children precede edits of later children, and the zip stops
at the shorter list. -/
def handle_tys (md : AdtMetadataTable) : List RwLTy → List HirTy → Except String (List (Span × Rewrite))
  | [], _ => .ok []
  | _ :: _, [] => .ok []
  | a :: as, h :: hs =>
    match handle_ty md a h with
    | .error e => .error e
    | .ok es =>
      match handle_tys md as hs with
      | .error e => .error e
      | .ok es2 => .ok (es ++ es2)

end

/-- Mirror of `hir::GenericParamKind` as read by `visit_item` (only the
lifetime/non-lifetime distinction matters there). -/
inductive GenericParamKind where
  | lifetime
  | type
  | const
deriving DecidableEq, Repr

/-- Mirror of a declared generic parameter (`hir::GenericParam`): its kind and
its printed name (`gp.name.ident().to_string()`). -/
structure GenericParam where
  kind : GenericParamKind
  name : String
deriving DecidableEq, Repr

/-- Mirror of `hir::Generics`: the declared parameter list and its span. -/
structure Generics where
  params : List GenericParam
  span : Span
deriving DecidableEq, Repr

/-- Mirror of the parameter loop of `visit_item` (ItemKind::Struct branch):
walk the declared parameters, pairing each declared lifetime parameter with
the next updated lifetime parameter (`expect("Not enough
updated_lifetime_params")`), collecting non-lifetime parameters separately;
returns (updated_lifetimes, other_params, remaining updated iterator). -/
def split_params : List GenericParam → List OriginParam →
    Except String (List Rewrite × List Rewrite × List OriginParam)
  | [], updated => .ok ([], [], updated)
  | gp :: rest, updated =>
    match gp.kind with
    | .lifetime =>
      match updated with
      | [] => .error "Not enough updated_lifetime_params"
      | u :: us =>
        match split_params rest us with
        | .error e => .error e
        | .ok (ul, op, rem) =>
          .ok (Rewrite.PrintTy (originParamFmt u) :: ul, op, rem)
    | _ =>
      match split_params rest updated with
      | .error e => .error e
      | .ok (ul, op, rem) =>
        .ok (ul, Rewrite.PrintTy gp.name :: op, rem)

/-- Mirror of the generics portion of `HirTyVisitor::visit_item` for a struct
declaration: when the inferred lifetime-parameter count differs from the
declared lifetime-parameter count, push one `TyParams` edit at the generics
span whose sequence is updated existing lifetimes, then newly introduced
lifetimes, then the non-lifetime parameters. -/
def struct_generics_rewrites (updated_lifetime_params : List OriginParam)
    (generics : Generics) : Except String (List (Span × Rewrite)) :=
  let original_lifetime_param_count :=
    (generics.params.filter fun p => p.kind = GenericParamKind.lifetime).length
  if updated_lifetime_params.length ≠ original_lifetime_param_count then
    match split_params generics.params updated_lifetime_params with
    | .error e => .error e
    | .ok (updated_lifetimes, other_params, rem) =>
      .ok [(generics.span, Rewrite.TyParams
        (updated_lifetimes ++
         rem.map (fun u => Rewrite.PrintTy (originParamFmt u)) ++
         other_params))]
  else .ok []

/-- The claim-C7 substitution on a quantity: offset-capable replaced by
dynamic-slice. -/
def Quantity.offsetToSlice : Quantity → Quantity
  | .OffsetPtr => .Slice
  | q => q

/-- The claim-C7 substitution applied to a label's decision. -/
def RewriteLabel.offsetToSlice (l : RewriteLabel) : RewriteLabel :=
  { l with ty_desc := l.ty_desc.map fun p => (p.1, p.2.offsetToSlice) }

mutual

/-- The claim-C7 substitution applied throughout an annotated type tree. -/
def RwLTy.offsetToSlice : RwLTy → RwLTy
  | .mk t as l => .mk t (RwLTy.offsetToSliceList as) (l.offsetToSlice)

/-- The claim-C7 substitution applied to a list of annotated type trees. -/
def RwLTy.offsetToSliceList : List RwLTy → List RwLTy
  | [] => []
  | a :: rest => RwLTy.offsetToSlice a :: RwLTy.offsetToSliceList rest

end

/-- Mirror of `crate::graph::NodeKind` as matched by info.rs: copies, field
projections, pointer offsets (with their signed amount), loads and stores,
and a stand-in for every other variant. -/
inductive NodeKind where
  | copy
  | field (f : Nat)
  | offset (x : Int)
  | storeAddr
  | storeValue
  | loadAddr
  | loadValue
  | other
deriving DecidableEq, Repr

/-- Mirror of `NodeInfo` from info.rs. -/
structure NodeInfo where
  flows_to_mutation : Option Nat
  flows_to_load : Option Nat
  flows_to_pos_offset : Option Nat
  flows_to_neg_offset : Option Nat
  non_unique : Option Nat
deriving DecidableEq, Repr

/-- Mirror of `crate::graph::Node` as read by info.rs: the provenance edge to
the source node, the node kind, and the computed `node_info`. -/
structure PdgNode where
  source : Option Nat
  kind : NodeKind
  node_info : Option NodeInfo
deriving DecidableEq, Repr

/-- Mirror of `crate::graph::Graph`: an indexed vector of nodes; a `NodeId` is
the node's position in the list. -/
structure PdgGraph where
  nodes : List PdgNode
deriving DecidableEq, Repr

/-- Mirror of `node_does_mutation`. -/
def node_does_mutation (n : PdgNode) : Bool :=
  match n.kind with
  | .storeAddr => true
  | .storeValue => true
  | _ => false

/-- Mirror of `node_does_load`. -/
def node_does_load (n : PdgNode) : Bool :=
  match n.kind with
  | .loadAddr => true
  | .loadValue => true
  | _ => false

/-- Mirror of `node_does_pos_offset`. -/
def node_does_pos_offset (n : PdgNode) : Bool :=
  match n.kind with
  | .offset x => x > 0
  | _ => false

/-- Mirror of `node_does_neg_offset`. -/
def node_does_neg_offset (n : PdgNode) : Bool :=
  match n.kind with
  | .offset x => x < 0
  | _ => false

/-- Association-list update for `m.entry(par).or_insert_with(Vec::new).push(chi)`. -/
def pushChildA (m : List (Nat × List Nat)) (par chi : Nat) : List (Nat × List Nat) :=
  match m with
  | [] => [(par, [chi])]
  | (k, v) :: rest =>
    if k = par then (k, v ++ [chi]) :: rest else (k, v) :: pushChildA rest par chi

/-- Mirror of `collect_children`: map every node with a source edge to its
parent's child list. -/
def collect_children (g : PdgGraph) : List (Nat × List Nat) :=
  (g.nodes.enum.filterMap fun p =>
    match p.2.source with
    | some s => some (s, p.1)
    | none => none).foldl (fun m pc => pushChildA m pc.1 pc.2) []

/-- State of the `while let Some(..) = to_view.pop()` loop inside
`create_uniqueness_info`: the work stack (head is the stack top) and the
`path_to_fields` accumulator. -/
structure UniqState where
  to_view : List (Nat × List Nat)
  path_to_fields : List (List Nat × List Nat)

/-- Association-list update for
`path_to_fields.entry(path).or_insert_with(Vec::new).push(curidx)`. -/
def entryPushPath (m : List (List Nat × List Nat)) (path : List Nat) (idx : Nat) :
    List (List Nat × List Nat) :=
  match m with
  | [] => [(path, [idx])]
  | (k, v) :: rest =>
    if k = path then (k, v ++ [idx]) :: rest else (k, v) :: entryPushPath rest path idx

/-- The child-annotation map inside `create_uniqueness_info`'s loop body:
each child of the current node keeps the current path, extended by the field
when the child is a field projection; `g.nodes.get(cidx).unwrap()` may panic. -/
def uniqChildren (g : PdgGraph) (path : List Nat) : List Nat → Except String (List (Nat × List Nat))
  | [] => .ok []
  | cidx :: rest =>
    match g.nodes.get? cidx with
    | none => .error "create_uniqueness_info: g.nodes.get unwrap failed"
    | some cn =>
      let item :=
        match cn.kind with
        | .field f => (cidx, path ++ [f])
        | _ => (cidx, path)
      match uniqChildren g path rest with
      | .error e => .error e
      | .ok items => .ok (item :: items)

/-- Mirror of the initialization of `create_uniqueness_info`:
`to_view = vec![(g.nodes.indices().nth(0).unwrap(), vec![])]` (panics on an
empty graph) and an empty `path_to_fields`. -/
def uniq_init (g : PdgGraph) : Except String UniqState :=
  match g.nodes with
  | [] => .error "create_uniqueness_info: indices().nth(0) unwrap failed"
  | _ :: _ => .ok ⟨[(0, [])], []⟩

/-- One iteration of `create_uniqueness_info`'s while loop: pop the top work
item, look up the popped node's children (`downward.get(&curidx).unwrap()` —
panics when the node has no children entry), push the annotated children, and
record the current node under its path.  Returns `none` when the stack is
empty, i.e. when control falls through to the trailing `loop { }`. -/
def uniq_step (g : PdgGraph) (s : UniqState) : Except String (Option UniqState) :=
  match s.to_view with
  | [] => .ok none
  | (curidx, path) :: rest =>
    match (collect_children g).lookup curidx with
    | none => .error "create_uniqueness_info: downward.get unwrap failed"
    | some children =>
      match uniqChildren g path children with
      | .error e => .error e
      | .ok newchildren =>
        .ok (some ⟨newchildren.foldl (fun st x => x :: st) rest,
                   entryPushPath s.path_to_fields path curidx⟩)

/-- Fuel-indexed execution of `create_uniqueness_info`'s while loop.
`.ok (some s)` means the loop is still running after the given number of
iterations; `.ok none` means the while loop exited (after which the source
unconditionally enters `loop { }` and never returns). -/
def uniq_iter (g : PdgGraph) : Nat → UniqState → Except String (Option UniqState)
  | 0, s => .ok (some s)
  | n + 1, s =>
    match uniq_step g s with
    | .error e => .error e
    | .ok none => .ok none
    | .ok (some s2) => uniq_iter g n s2

/-- The one-node graph whose only node is a `Copy` of itself: the concrete
input shape on which the `create_uniqueness_info` traversal cycles forever. -/
def selfLoopGraph : PdgGraph :=
  ⟨[⟨some 0, NodeKind.copy, none⟩]⟩

/-- Mirror of `add_children_to_vec`: extend the work list with every node
whose source is one of the given parents.  The source appends to the end of
the `Vec` that is popped from the end; with the head of the list as the
stack top this is prepending the enumeration in reverse. -/
def add_children_to_vec (g : PdgGraph) (parents : List Nat) (v : List Nat) : List Nat :=
  ((g.nodes.enum.filterMap fun p =>
    match p.2.source with
    | some src => if src ∈ parents then some p.1 else none
    | none => none).reverse) ++ v

/-- Mirror of the loop of `check_flows_to_node_kind`, with explicit fuel: pop
a node id; skip it if seen; otherwise mark it seen, fetch it
(`g.nodes.get(..).unwrap()` — may panic), return it if it satisfies the
check, else push the children of all seen nodes.  `.ok none` is returned
both when the work list empties and when fuel runs out (the source loop
always terminates for these by-construction-finite traversals, so any large
enough fuel is faithful). -/
def check_flows_loop (g : PdgGraph) (node_check : PdgNode → Bool) :
    Nat → List Nat → List Nat → Except String (Option Nat)
  | 0, _, _ => .ok none
  | _ + 1, _, [] => .ok none
  | fuel + 1, seen, id :: rest =>
    if id ∈ seen then check_flows_loop g node_check fuel seen rest
    else
      let seen2 := id :: seen
      match g.nodes.get? id with
      | none => .error "check_flows_to_node_kind: g.nodes.get unwrap failed"
      | some node =>
        if node_check node then .ok (some id)
        else check_flows_loop g node_check fuel seen2 (add_children_to_vec g seen2 rest)

/-- Mirror of `check_flows_to_node_kind`: breadth-bounded search from `n`
through descendant edges for a node satisfying `node_check`. -/
def check_flows_to_node_kind (g : PdgGraph) (n : Nat) (node_check : PdgNode → Bool)
    (fuel : Nat) : Except String (Option Nat) :=
  check_flows_loop g node_check fuel [] [n]

/-- Mirror of the loop of `greatest_desc`, with explicit fuel: track the
largest node index among all descendants of the start node. -/
def greatest_desc_loop (g : PdgGraph) :
    Nat → List Nat → List Nat → Nat → Nat
  | 0, _, _, greatest => greatest
  | _ + 1, _, [], greatest => greatest
  | fuel + 1, seen, id :: rest, greatest =>
    if id ∈ seen then greatest_desc_loop g fuel seen rest greatest
    else
      let seen2 := id :: seen
      let greatest2 := if id > greatest then id else greatest
      greatest_desc_loop g fuel seen2 (add_children_to_vec g seen2 rest) greatest2

/-- Mirror of `greatest_desc`. -/
def greatest_desc (g : PdgGraph) (n : Nat) (fuel : Nat) : Nat :=
  greatest_desc_loop g fuel [] [n] n

/-- Mirror of the loop of `calc_lineage`, with explicit fuel (the source loop
cycles forever on a provenance cycle): walk up through Copy, Field and
Offset edges, collecting the fields crossed; the head of the returned lineage
list is the most recently pushed field (the source pushes to and pops from
the end of its `Vec`). -/
def calc_lineage_loop (g : PdgGraph) :
    Nat → Nat → List Nat → Except String (Nat × List Nat)
  | 0, n_idx, lineage => .ok (n_idx, lineage)
  | fuel + 1, n_idx, lineage =>
    match g.nodes.get? n_idx with
    | none => .error "calc_lineage: g.nodes.get unwrap failed"
    | some node =>
      match node.source with
      | none => .ok (n_idx, lineage)
      | some parent =>
        match node.kind with
        | .offset _ => calc_lineage_loop g fuel parent lineage
        | .copy => calc_lineage_loop g fuel parent lineage
        | .field f => calc_lineage_loop g fuel parent (f :: lineage)
        | _ => .ok (n_idx, lineage)

/-- Mirror of `calc_lineage`: the highest ancestor reached through Copy,
Field and Offset edges, with the fields crossed on the way. -/
def calc_lineage (g : PdgGraph) (n : Nat) (fuel : Nat) : Except String (Nat × List Nat) :=
  calc_lineage_loop g fuel n []

/-- The children of one node paired with a lineage, as pushed by
`check_whether_rules_obeyed` (`to_view.extend(..)` appends to the popped end,
hence the reverse onto the head-as-top stack). -/
def lineage_children (g : PdgGraph) (cur : Nat) (lineage : List Nat) :
    List (Nat × List Nat) :=
  ((g.nodes.enum.filterMap fun p =>
    match p.2.source with
    | some src => if src = cur then some (p.1, lineage) else none
    | none => none).reverse)

/-- Mirror of the loop of `check_whether_rules_obeyed`, with explicit fuel:
walk down from the oldest ancestor, matching the lineage's fields; a node
with an empty remaining lineage whose index lies between `n` and `n`'s
youngest descendant proves non-uniqueness. -/
def rules_obeyed_loop (g : PdgGraph) (n : Nat) (youngest : Nat) :
    Nat → List (Nat × List Nat) → Except String (Option Nat)
  | 0, _ => .ok none
  | _ + 1, [] => .ok none
  | fuel + 1, (cur, lineage) :: rest =>
    if cur = n then rules_obeyed_loop g n youngest fuel rest
    else
      match g.nodes.get? cur with
      | none => .error "check_whether_rules_obeyed: g.nodes.get unwrap failed"
      | some node =>
        let popped : Option (List Nat) :=
          match node.kind with
          | .field f =>
            match lineage with
            | [] => none
            | top :: rest2 => if top ≠ f then none else some rest2
          | _ => some lineage
        match popped with
        | none => rules_obeyed_loop g n youngest fuel rest
        | some lineage2 =>
          if lineage2 = [] ∧ cur ≥ n ∧ cur ≤ youngest then .ok (some cur)
          else rules_obeyed_loop g n youngest fuel
            (lineage_children g cur lineage2 ++ rest)

/-- Mirror of `check_whether_rules_obeyed`: search for a node proving that
`n` is not unique. -/
def check_whether_rules_obeyed (g : PdgGraph) (n : Nat) (fuel : Nat) :
    Except String (Option Nat) :=
  match calc_lineage g n fuel with
  | .error e => .error e
  | .ok (oldest_ancestor, oldest_lineage) =>
    rules_obeyed_loop g n (greatest_desc g n fuel) fuel [(oldest_ancestor, oldest_lineage)]

/-- HashMap insert on an association list (replace an existing key's value,
otherwise append). -/
def insertA (m : List (Nat × Nat)) (k v : Nat) : List (Nat × Nat) :=
  match m with
  | [] => [(k, v)]
  | (k2, v2) :: rest =>
    if k2 = k then (k, v) :: rest else (k2, v2) :: insertA rest k v

/-- HashMap remove on an association list: the removed value (if any) and the
map without the key. -/
def removeA (m : List (Nat × Nat)) (k : Nat) : Option Nat × List (Nat × Nat) :=
  (m.lookup k, m.filter fun p => p.1 ≠ k)

/-- The five flow maps of `augment_with_info`'s first loop, in source order:
mutation, load, positive offset, negative offset, non-unique. -/
abbrev FlowMaps :=
  List (Nat × Nat) × List (Nat × Nat) × List (Nat × Nat) × List (Nat × Nat) × List (Nat × Nat)

/-- Mirror of the first loop of `augment_with_info`: for every node index run
the four flow checks and the uniqueness check, inserting each found witness
into its map. -/
def flow_maps_loop (g : PdgGraph) (fuel : Nat) :
    List Nat → FlowMaps → Except String FlowMaps
  | [], ms => .ok ms
  | idx :: rest, (m1, m2, m3, m4, m5) =>
    match check_flows_to_node_kind g idx node_does_mutation fuel with
    | .error e => .error e
    | .ok r1 =>
      match check_flows_to_node_kind g idx node_does_load fuel with
      | .error e => .error e
      | .ok r2 =>
        match check_flows_to_node_kind g idx node_does_pos_offset fuel with
        | .error e => .error e
        | .ok r3 =>
          match check_flows_to_node_kind g idx node_does_neg_offset fuel with
          | .error e => .error e
          | .ok r4 =>
            match check_whether_rules_obeyed g idx fuel with
            | .error e => .error e
            | .ok r5 =>
              flow_maps_loop g fuel rest
                ((match r1 with | some v => insertA m1 idx v | none => m1),
                 (match r2 with | some v => insertA m2 idx v | none => m2),
                 (match r3 with | some v => insertA m3 idx v | none => m3),
                 (match r4 with | some v => insertA m4 idx v | none => m4),
                 (match r5 with | some v => insertA m5 idx v | none => m5))

/-- Mirror of the second loop of `augment_with_info`: assemble each node's
`NodeInfo` by draining the maps.  As in the source, the
`flows_to_neg_offset` field is filled from `idx_flow_to_pos_offset.remove(&idx)`
— the positive-offset map, already drained for this index on the previous
line — while the negative-offset map (`m4`) is never read. -/
def assemble_node_infos : List PdgNode → Nat → FlowMaps → List PdgNode
  | [], _, _ => []
  | node :: rest, idx, (m1, m2, m3, m4, m5) =>
    let r1 := removeA m1 idx
    let r2 := removeA m2 idx
    let rp := removeA m3 idx
    let rn := removeA rp.2 idx
    let r5 := removeA m5 idx
    { node with node_info := some ⟨r1.1, r2.1, rp.1, rn.1, r5.1⟩ } ::
      assemble_node_infos rest (idx + 1) (r1.2, r2.2, rn.2, m4, r5.2)

/-- Mirror of `augment_with_info` restricted to one graph: compute the flow
maps, then assemble every node's `NodeInfo`. -/
def augment_graph (fuel : Nat) (g : PdgGraph) : Except String PdgGraph :=
  match flow_maps_loop g fuel (List.range g.nodes.length) ([], [], [], [], []) with
  | .error e => .error e
  | .ok ms => .ok ⟨assemble_node_infos g.nodes 0 ms⟩

/-- Mirror of `augment_with_info` over the whole `Graphs` collection. -/
def augment_with_info (fuel : Nat) : List PdgGraph → Except String (List PdgGraph)
  | [] => .ok []
  | g :: gs =>
    match augment_graph fuel g with
    | .error e => .error e
    | .ok g2 =>
      match augment_with_info fuel gs with
      | .error e => .error e
      | .ok gs2 => .ok (g2 :: gs2)

/-- A two-node graph whose second node performs a negative offset from the
first: the negative-offset flow check finds it, yet `augment_with_info`
stores `none` for the first node's `flows_to_neg_offset`. -/
def negOffGraph : PdgGraph :=
  ⟨[⟨none, NodeKind.copy, none⟩, ⟨some 0, NodeKind.offset (-1), none⟩]⟩

/-- The annotated type tree of a function parameter written `x: *mut u8`
whose pointer decision is `(BorrowedMutable, DynamicSlice)` — in source
terms, `(Ownership::Mut, Quantity::Slice)`; the signature path of
`gen_ty_rewrites` labels parameters with no explicit lifetime, and the `u8`
pointee carries no decision. -/
def c1ParamLty : RwLTy :=
  .mk (.rawPtr .mut (.uint .u8))
    [.mk (.uint .u8) [] ⟨none, false, none⟩]
    ⟨some (.Mut, .Slice), false, none⟩

/-- The written type `*mut u8` of that parameter: a mutable raw-pointer node
at the parameter's span around the primitive path `u8` at the pointee span. -/
def c1ParamHirTy (paramSpan pointeeSpan : Span) : HirTy :=
  .mk (.ptr .mut (.mk (.path (.primTy (.uint .u8)) none) pointeeSpan)) paramSpan

/-- C1: for a function parameter written `*mut u8` with pointer decision
(BorrowedMutable, DynamicSlice), the type rewrite generator emits exactly one
edit at the parameter's span, and its tree is a mutable reference with elided
lifetime around a slice around the `Sub(0, pointee-span)` placeholder —
rendering as `&mut [u8]` once the pointee is resolved. -/
theorem c1_borrowed_mut_slice_param (md : AdtMetadataTable) (paramSpan pointeeSpan : Span) :
    handle_ty md c1ParamLty (c1ParamHirTy paramSpan pointeeSpan) =
      .ok [(paramSpan,
        Rewrite.TyRef .Elided (.TySlice (.Sub 0 pointeeSpan)) .mut)] := rfl

/-- C2: the renderer produces exactly the five texts the spec lists for the
five precedence test trees (this mirrors the `rewrite_pretty_precedence`
expectations). -/
theorem c2_precedence_renderings :
    pretty (.Ref (.Index .Identity .Identity) .not) 0 = "&$e[$e]" ∧
    pretty (.Index (.Ref .Identity .not) (.Ref .Identity .not)) 0 = "(&$e)[&$e]" ∧
    pretty (.Cast (.Ref .Identity .not) "usize") 0 = "&$e as usize" ∧
    pretty (.Ref (.Cast .Identity "usize") .not) 0 = "&($e as usize)" ∧
    pretty (.Index (.Index .Identity .Identity) .Identity) 0 = "$e[$e][$e]" :=
  ⟨rfl, rfl, rfl, rfl, rfl⟩

/-- C3 (counterexample): the parenthesization rule exactly as the claim words
it is false — a node of a non-parenthesizable kind (here the literal `0`,
claimed precedence 0) is not wrapped even when the context requires
precedence 1 (`Cast`'s operand position): `Cast(LitZero, "usize")` renders
as `0 as usize`, not `(0) as usize`. -/
theorem c3_claimed_rule_refuted : ¬ claimParenRule := by
  intro h
  have h2 := h Rewrite.LitZero 1
  revert h2
  decide

/-- C3 (amended): the renderer parenthesizes only nodes of the five
parenthesizable kinds — Index/SliceTail (precedence 3), Ref/Deref (2),
Cast (1) — exactly when the context precedence exceeds the node's
precedence; nodes of every other kind render identically under every
context precedence and are never wrapped. -/
theorem c3_parenthesization (rw : Rewrite) (prec : Nat) :
    pretty rw prec =
      match effPrec rw with
      | some q => if q < prec then "(" ++ pretty rw 0 ++ ")" else pretty rw 0
      | none => pretty rw 0 := by
  cases rw <;> simp [pretty, effPrec, parenthesizeIf]

/-- C5: a node that is no aggregate, carries no pointer decision, and has no
descendant needing a rewrite is pruned: the generator adds no edit at all. -/
theorem c5_pruning (md : AdtMetadataTable) (ty : Ty) (args : List RwLTy)
    (label : RewriteLabel) (hir_ty : HirTy)
    (h1 : ty.isAdt = false) (h2 : label.ty_desc = none)
    (h3 : label.descendant_has_rewrite = false) :
    handle_ty md (.mk ty args label) hir_ty = .ok [] := by
  simp [handle_ty, h1, h2, h3]

/-- C5 witness: the pruning theorem applied at a concrete `bool` node with an
unannotated label. -/
theorem c5_pruning_witness :
    handle_ty [] (.mk .bool [] ⟨none, false, none⟩) (.mk .infer 0) = .ok [] :=
  c5_pruning [] .bool [] ⟨none, false, none⟩ (.mk .infer 0) rfl rfl rfl

/-- C10: multi-argument generic-type constructors are rendered with no
separator between their arguments (`Foo<T1T2>`) while `Call` and
`MethodCall` argument lists are comma-separated. -/
theorem c10_tyctor_no_separator :
    (∀ (name : String) (a b : Rewrite) (prec : Nat),
      pretty (.TyCtor name [a, b]) prec =
        name ++ "<" ++ (pretty a 0 ++ pretty b 0) ++ ">") ∧
    pretty (.TyCtor "Foo" [.PrintTy "T1", .PrintTy "T2"]) 0 = "Foo<T1T2>" ∧
    pretty (.Call "f" [.PrintTy "T1", .PrintTy "T2"]) 0 = "f(T1,T2)" ∧
    pretty (.MethodCall "m" .Identity [.PrintTy "T1", .PrintTy "T2"]) 0 = "$e.m(T1,T2)" := by
  refine ⟨?_, rfl, rfl, rfl⟩
  intro name a b prec
  simp [pretty, prettyConcat, String.append_assoc]

/-- C4: when the written syntax cannot be decomposed to match the resolved
type and the node is not pruned, the generator emits exactly one `PrintTy`
edit spanning the node's whole range, carrying the fully synthesized
rewritten type, and no structural or partial edits for the node or its
descendants. -/
theorem c4_fallback_full_type (md : AdtMetadataTable) (ty : Ty) (args : List RwLTy)
    (label : RewriteLabel) (hir_ty : HirTy) (t : Ty)
    (h_reach : (!ty.isAdt && label.ty_desc.isNone && !label.descendant_has_rewrite) = false)
    (h_dec : deconstruct_hir_ty ty hir_ty = none)
    (h_mk : mk_rewritten_ty (.mk ty args label) = .ok t) :
    handle_ty md (.mk ty args label) hir_ty =
      .ok [(hir_ty.span, Rewrite.PrintTy (printTyStr t))] := by
  simp [handle_ty, h_reach, h_dec, h_mk]

/-- C4 witness: the fallback theorem applied to a written alias `MyPtr` whose
resolved type is `*mut u8` with decision (BorrowedMutable, Single): one
`PrintTy "&mut u8"` edit at the alias's span. -/
theorem c4_fallback_full_type_witness :
    handle_ty []
      (.mk (.rawPtr .mut (.uint .u8))
        [.mk (.uint .u8) [] ⟨none, false, none⟩]
        ⟨some (.Mut, .Single), false, none⟩)
      (.mk (.path (.defRes "MyPtr") none) 5) =
      .ok [(5, Rewrite.PrintTy "&mut u8")] :=
  c4_fallback_full_type [] (.rawPtr .mut (.uint .u8))
    [.mk (.uint .u8) [] ⟨none, false, none⟩]
    ⟨some (.Mut, .Single), false, none⟩
    (.mk (.path (.defRes "MyPtr") none) 5)
    (.ref .mut (.uint .u8)) rfl rfl rfl

/-- Helper for C6: with enough updated lifetime parameters, `split_params`
pairs each declared lifetime parameter with the next updated one (so the
updated-lifetimes list is the formatted prefix of the updated list), collects
the non-lifetime parameter names, and leaves the remaining updated suffix. -/
theorem split_params_spec : ∀ (params : List GenericParam) (updated : List OriginParam),
    (params.filter fun p => p.kind = GenericParamKind.lifetime).length ≤ updated.length →
    split_params params updated =
      .ok (((updated.take (params.filter fun p => p.kind = GenericParamKind.lifetime).length).map
              fun u => Rewrite.PrintTy (originParamFmt u)),
           ((params.filter fun p => p.kind ≠ GenericParamKind.lifetime).map
              fun p => Rewrite.PrintTy p.name),
           updated.drop (params.filter fun p => p.kind = GenericParamKind.lifetime).length) := by
  intro params
  induction params with
  | nil => intro updated _; simp [split_params]
  | cons gp rest ih =>
    intro updated hle
    cases hk : gp.kind with
    | lifetime =>
      cases updated with
      | nil =>
        rw [List.filter_cons_of_pos (by simp [hk])] at hle
        simp at hle
      | cons u us =>
        rw [List.filter_cons_of_pos (by simp [hk])] at hle ⊢
        rw [List.filter_cons_of_neg (by simp [hk])]
        simp only [split_params, hk]
        rw [ih us (by simpa using hle)]
        simp
    | type =>
      rw [List.filter_cons_of_neg (by simp [hk])] at hle ⊢
      rw [List.filter_cons_of_pos (by simp [hk])]
      simp only [split_params, hk]
      rw [ih updated hle]
      simp
    | const =>
      rw [List.filter_cons_of_neg (by simp [hk])] at hle ⊢
      rw [List.filter_cons_of_pos (by simp [hk])]
      simp only [split_params, hk]
      rw [ih updated hle]
      simp

/-- C6 (counterexample): an aggregate declared with one lifetime parameter
but zero inferred lifetime parameters has differing counts, yet the generator
panics (`expect("Not enough updated_lifetime_params")`) instead of emitting a
`GenericParameterList` edit. -/
theorem c6_not_enough_updated_params :
    struct_generics_rewrites [] ⟨[⟨.lifetime, "a"⟩], 0⟩ =
      .error "Not enough updated_lifetime_params" := rfl

/-- C6 (amended): for an aggregate whose inferred lifetime-parameter count
differs from the declared count and is at least the declared count, exactly
one `TyParams` edit is emitted at the generics span, whose sequence is the
updated existing lifetime parameters in declaration order, then the newly
introduced lifetime parameters, then the non-lifetime parameters — which
together is the whole updated lifetime list followed by the non-lifetime
parameters. -/
theorem c6_generic_param_list (updated : List OriginParam) (generics : Generics)
    (h_ne : updated.length ≠
      (generics.params.filter fun p => p.kind = GenericParamKind.lifetime).length)
    (h_le : (generics.params.filter fun p => p.kind = GenericParamKind.lifetime).length ≤
      updated.length) :
    struct_generics_rewrites updated generics =
      .ok [(generics.span, Rewrite.TyParams
        ((updated.map fun u => Rewrite.PrintTy (originParamFmt u)) ++
         ((generics.params.filter fun p => p.kind ≠ GenericParamKind.lifetime).map
            fun p => Rewrite.PrintTy p.name)))] := by
  simp only [struct_generics_rewrites, if_pos h_ne]
  rw [split_params_spec generics.params updated h_le]
  simp only [← List.map_append, List.take_append_drop]

/-- C6 witness: an aggregate with zero declared lifetime parameters, two
inferred hypothetical lifetime parameters, and one pre-existing type
parameter `T` gets exactly one `TyParams` edit inserting the two new
lifetimes before `T`. -/
theorem c6_generic_param_list_witness :
    struct_generics_rewrites [.hypothetical 0, .hypothetical 1] ⟨[⟨.type, "T"⟩], 7⟩ =
      .ok [(7, Rewrite.TyParams
        [Rewrite.PrintTy "h0", Rewrite.PrintTy "h1", Rewrite.PrintTy "T"])] :=
  c6_generic_param_list [.hypothetical 0, .hypothetical 1] ⟨[⟨.type, "T"⟩], 7⟩
    (by decide) (by decide)

/-- Helper for C8: one iteration of the `create_uniqueness_info` loop on the
self-loop graph pops node 0 and pushes it back, leaving the work stack
unchanged. -/
theorem uniq_step_selfLoop (ptf : List (List Nat × List Nat)) :
    uniq_step selfLoopGraph ⟨[(0, [])], ptf⟩ =
      .ok (some ⟨[(0, [])], entryPushPath ptf [] 0⟩) := rfl

/-- Helper for C8: after any number of iterations on the self-loop graph the
loop is still running with work stack `[(0, [])]`. -/
theorem uniq_iter_selfLoop : ∀ (n : Nat) (ptf : List (List Nat × List Nat)),
    ∃ ptf2, uniq_iter selfLoopGraph n ⟨[(0, [])], ptf⟩ =
      .ok (some ⟨[(0, [])], ptf2⟩) := by
  intro n
  induction n with
  | zero => intro ptf; exact ⟨ptf, rfl⟩
  | succ n ih =>
    intro ptf
    obtain ⟨ptf2, h2⟩ := ih (entryPushPath ptf [] 0)
    exact ⟨ptf2, by simp [uniq_iter, uniq_step_selfLoop ptf, h2]⟩

/-- C8: on the one-node self-copy graph the `create_uniqueness_info`
traversal never terminates: initialization succeeds, and after every number
of loop iterations the while loop is still running (it never exits, so the
trailing `loop { }` — which never returns — is not even reached, and no
panic occurs); hence the uniqueness-info construction is not total. -/
theorem c8_uniqueness_info_diverges :
    uniq_init selfLoopGraph = .ok ⟨[(0, [])], []⟩ ∧
    ∀ n : Nat, ∃ ptf, uniq_iter selfLoopGraph n ⟨[(0, [])], []⟩ =
      .ok (some ⟨[(0, [])], ptf⟩) := by
  refine ⟨rfl, ?_⟩
  intro n
  exact uniq_iter_selfLoop n []

/-- Helper for C9: looking a key up after filtering it out yields nothing. -/
theorem lookup_filter_ne (m : List (Nat × Nat)) (k : Nat) :
    (m.filter fun p => p.1 ≠ k).lookup k = none := by
  induction m with
  | nil => rfl
  | cons hd tl ih =>
    obtain ⟨a, b⟩ := hd
    by_cases h : a = k
    · simpa [List.filter_cons, h] using ih
    · have hbeq : (k == a) = false := by simp [Ne.symm h]
      rw [List.filter_cons_of_pos (by simp [h])]
      simp only [List.lookup, hbeq]
      exact ih

/-- Helper for C9: removing the same key twice in a row yields nothing the
second time. -/
theorem removeA_twice (m : List (Nat × Nat)) (k : Nat) :
    (removeA (removeA m k).2 k).1 = none :=
  lookup_filter_ne m k

/-- Helper for C9: every node assembled by the second loop of
`augment_with_info` stores `none` in `flows_to_neg_offset`, whatever the
five flow maps contain — because that field is filled from the
positive-offset map, from which the same index was just removed. -/
theorem assemble_neg_offset_none :
    ∀ (nodes : List PdgNode) (idx : Nat) (ms : FlowMaps),
    ∀ nd ∈ assemble_node_infos nodes idx ms,
      nd.node_info.map NodeInfo.flows_to_neg_offset = some none := by
  intro nodes
  induction nodes with
  | nil => intro idx ms nd h; simp [assemble_node_infos] at h
  | cons node rest ih =>
    intro idx ms nd h
    obtain ⟨m1, m2, m3, m4, m5⟩ := ms
    simp only [assemble_node_infos] at h
    rcases List.mem_cons.mp h with h | h
    · subst h
      simp [removeA_twice]
    · exact ih (idx + 1) _ nd h

/-- C9: for every input and every fuel, every node of every graph produced by
`augment_with_info` stores `none` in `flows_to_neg_offset` — even though the
negative-offset flow check itself does find a negative-offset descendant on
`negOffGraph` (second conjunct) and records it in the separately computed
negative-offset map, because the `NodeInfo` assembly reads the already
drained positive-offset map instead of the negative-offset map. -/
theorem c9_neg_offset_always_none :
    (∀ (fuel : Nat) (gs gs2 : List PdgGraph), augment_with_info fuel gs = .ok gs2 →
      ∀ g ∈ gs2, ∀ nd ∈ g.nodes,
        nd.node_info.map NodeInfo.flows_to_neg_offset = some none) ∧
    check_flows_to_node_kind negOffGraph 0 node_does_neg_offset 10 = .ok (some 1) := by
  constructor
  · intro fuel gs
    induction gs with
    | nil =>
      intro gs2 h g hg
      simp only [augment_with_info] at h
      cases h
      simp at hg
    | cons g0 rest ih =>
      intro gs2 h g hg
      simp only [augment_with_info] at h
      cases h1 : augment_graph fuel g0 with
      | error e => rw [h1] at h; cases h
      | ok g2 =>
        rw [h1] at h
        cases h2 : augment_with_info fuel rest with
        | error e => rw [h2] at h; cases h
        | ok gs3 =>
          rw [h2] at h
          cases h
          rcases List.mem_cons.mp hg with hg | hg
          · subst hg
            intro nd hnd
            simp only [augment_graph] at h1
            cases h3 : flow_maps_loop g0 fuel (List.range g0.nodes.length)
                ([], [], [], [], []) with
            | error e => rw [h3] at h1; cases h1
            | ok ms =>
              rw [h3] at h1
              cases h1
              exact assemble_neg_offset_none g0.nodes 0 ms nd hnd
          · exact ih gs3 h2 g hg
  · rfl

/-- C9 witness: running `augment_with_info` on the two-node negative-offset
graph and reading the first node of the result through the theorem: its
`flows_to_neg_offset` is `none`. -/
theorem c9_neg_offset_always_none_witness :
    (PdgNode.mk none NodeKind.copy
        (some ⟨none, none, none, none, none⟩)).node_info.map
      NodeInfo.flows_to_neg_offset = some none :=
  c9_neg_offset_always_none.1 10 [negOffGraph]
    [⟨[⟨none, NodeKind.copy, some ⟨none, none, none, none, none⟩⟩,
       ⟨some 0, NodeKind.offset (-1), some ⟨none, none, none, none, none⟩⟩]⟩]
    rfl
    ⟨[⟨none, NodeKind.copy, some ⟨none, none, none, none, none⟩⟩,
      ⟨some 0, NodeKind.offset (-1), some ⟨none, none, none, none, none⟩⟩]⟩
    (by decide)
    ⟨none, NodeKind.copy, some ⟨none, none, none, none, none⟩⟩
    (by decide)

/-- Helper for C7: the wrapper construction is unchanged by replacing the
offset-capable quantity with the dynamic-slice quantity. -/
theorem desc_rewrite_offsetToSlice (own : Ownership) (qty : Quantity)
    (lifetime : Option OriginArg) (span : Span) :
    desc_rewrite own qty.offsetToSlice lifetime span =
      desc_rewrite own qty lifetime span := by
  cases qty <;> rfl

/-- Helper for C7: the decision-edit computation is unchanged by the
substitution. -/
theorem ty_desc_edits_offsetToSlice (td : Option (Ownership × Quantity))
    (lifetime : Option OriginArg) (hir_args : List HirTy) (span : Span) :
    ty_desc_edits (td.map fun p => (p.1, p.2.offsetToSlice)) lifetime hir_args span =
      ty_desc_edits td lifetime hir_args span := by
  cases td with
  | none => rfl
  | some p =>
    obtain ⟨own, qty⟩ := p
    cases qty <;> rfl

/-- Helper for C7: the full-type synthesis step is unchanged by the
substitution. -/
theorem rewritten_ty_step_offsetToSlice (ty : Ty) (args : List Ty)
    (l : RewriteLabel) :
    rewritten_ty_step ty args l.offsetToSlice = rewritten_ty_step ty args l := by
  obtain ⟨td, dr, lt⟩ := l
  cases td with
  | none => rfl
  | some p =>
    obtain ⟨own, qty⟩ := p
    cases qty <;> rfl

/-- Helper for C7: pointwise-invariant children give an invariant bottom-up
synthesis list. -/
theorem mk_rewritten_tys_congr : ∀ (as : List RwLTy),
    (∀ a ∈ as, mk_rewritten_ty a.offsetToSlice = mk_rewritten_ty a) →
    mk_rewritten_tys (RwLTy.offsetToSliceList as) = mk_rewritten_tys as := by
  intro as
  induction as with
  | nil => intro _; rfl
  | cons a rest ih =>
    intro h
    simp only [RwLTy.offsetToSliceList, mk_rewritten_tys]
    rw [h a (by simp), ih (fun b hb => h b (by simp [hb]))]

/-- Helper for C7: pointwise-invariant children give an invariant recursive
edit list. -/
theorem handle_tys_congr (md : AdtMetadataTable) : ∀ (as : List RwLTy) (hs : List HirTy),
    (∀ a ∈ as, ∀ h2, handle_ty md a.offsetToSlice h2 = handle_ty md a h2) →
    handle_tys md (RwLTy.offsetToSliceList as) hs = handle_tys md as hs := by
  intro as
  induction as with
  | nil => intro hs _; rfl
  | cons a rest ih =>
    intro hs h
    cases hs with
    | nil => rfl
    | cons h0 hrest =>
      simp only [RwLTy.offsetToSliceList, handle_tys]
      rw [h a (by simp) h0, ih hrest (fun b hb h2 => h b (by simp [hb]) h2)]

/-- C7: replacing the offset-capable quantity category by the dynamic-slice
category everywhere in the input decision tree leaves the generator's output
unchanged, both on the edit-tree construction path (`handle_ty`) and on the
full-type synthesis path (`mk_rewritten_ty`). -/
theorem c7_offset_capable_same_as_slice :
    ∀ (rw : RwLTy) (md : AdtMetadataTable) (hir_ty : HirTy),
      handle_ty md rw.offsetToSlice hir_ty = handle_ty md rw hir_ty ∧
      mk_rewritten_ty rw.offsetToSlice = mk_rewritten_ty rw := by
  intro rw
  induction rw using RwLTy.ind with
  | _ t as l ih =>
    intro md hir_ty
    obtain ⟨td, dr, lt⟩ := l
    have ihm : ∀ a ∈ as, mk_rewritten_ty a.offsetToSlice = mk_rewritten_ty a :=
      fun a ha => (ih a ha [] (.mk .infer 0)).2
    have ihh : ∀ a ∈ as, ∀ h2, handle_ty md a.offsetToSlice h2 = handle_ty md a h2 :=
      fun a ha h2 => (ih a ha md h2).1
    have hmk : mk_rewritten_ty
        (.mk t (RwLTy.offsetToSliceList as) (RewriteLabel.offsetToSlice ⟨td, dr, lt⟩)) =
        mk_rewritten_ty (.mk t as ⟨td, dr, lt⟩) := by
      simp only [mk_rewritten_ty]
      rw [mk_rewritten_tys_congr as ihm]
      cases mk_rewritten_tys as with
      | error e => rfl
      | ok newArgs => exact rewritten_ty_step_offsetToSlice _ _ _
    refine ⟨?_, hmk⟩
    show handle_ty md
      (.mk t (RwLTy.offsetToSliceList as) (RewriteLabel.offsetToSlice ⟨td, dr, lt⟩)) hir_ty =
      handle_ty md (.mk t as ⟨td, dr, lt⟩) hir_ty
    simp only [handle_ty]
    simp only [RewriteLabel.offsetToSlice] at hmk ⊢
    have hcond : (Option.map (fun p => (p.1, Quantity.offsetToSlice p.2)) td).isNone = td.isNone := by
      cases td <;> rfl
    rw [hcond]
    by_cases hc : (!t.isAdt && td.isNone && !dr) = true
    · simp only [hc, if_pos]
    · rw [if_neg hc, if_neg hc]
      cases hdec : deconstruct_hir_ty t hir_ty with
      | none =>
        rw [hmk]
      | some hir_args =>
        dsimp only
        rw [ty_desc_edits_offsetToSlice td lt hir_args hir_ty.span]
        cases he1 : ty_desc_edits td lt hir_args hir_ty.span with
        | error e => rfl
        | ok e1 =>
          cases dr with
          | false => rfl
          | true =>
            rw [handle_tys_congr md as hir_args ihh]
